import Mathlib

/-!
Shallow embedding of the go-graphsync core (wire message layer, peer
manager, request manager event-loop handlers) together with theorems
checking the natural-language specification against this embedding.

Conventions of the embedding:
* Go `int32` values (request ids, priorities, status codes) are `Int`,
  with wraparound made explicit (`int32wrap`) where the code increments.
* Byte slices are `List Nat`.
* Go maps are association lists with unique keys; map indexing is
  `alookup`, map assignment is `upsert`, `delete` is `eraseKey`.
* Peer ids and content addresses are drawn from the external libp2p /
  cid libraries; peers are `Nat`, the multihash in a content address is
  modelled as a collision-free (injective) digest, here the identity on
  the raw bytes.
* Side effects of the event-loop handlers (calls into the async loader,
  the peer handler, error publication, traversal cancellation) are
  recorded as event traces; a Go nil-pointer dereference (panic) is
  `Option.none`.
-/

set_option maxHeartbeats 1000000

/-! ## Association list helpers (Go map semantics) -/

/-- Go map indexing `m[k]` (with the `ok` flag given by `Option`). -/
def alookup {κ α : Type} [DecidableEq κ] (k : κ) : List (κ × α) → Option α
  | [] => none
  | e :: rest => if e.1 = k then some e.2 else alookup k rest

/-- Go `delete(m, k)`. -/
def eraseKey {κ α : Type} [DecidableEq κ] (k : κ) (l : List (κ × α)) : List (κ × α) :=
  l.filter (fun e => decide (e.1 ≠ k))

/-- Go map assignment `m[k] = v`. -/
def upsert {κ α : Type} [DecidableEq κ] (k : κ) (v : α) (l : List (κ × α)) : List (κ × α) :=
  eraseKey k l ++ [(k, v)]

/-- In-place mutation of the value stored at key `k` (through a Go pointer). -/
def updateAt {κ α : Type} [DecidableEq κ] (k : κ) (f : α → α) (l : List (κ × α)) :
    List (κ × α) :=
  l.map (fun e => if e.1 = k then (e.1, f e.2) else e)

/-! ## Wire message layer (message/message.go) -/

/-- RequestAcknowledged means the request was received and is being worked on. -/
def RequestAcknowledged : Int := 10
/-- AdditionalPeers means additional peers were found for the request. -/
def AdditionalPeers : Int := 11
/-- NotEnoughGas means fulfilling this request requires payment. -/
def NotEnoughGas : Int := 12
/-- OtherProtocol means a different type of response is contained in extra. -/
def OtherProtocol : Int := 13
/-- PartialResponse may include blocks and metadata about the in-progress response. -/
def PartialResponse : Int := 14
/-- RequestCompletedFull means the entire fulfillment was sent back. -/
def RequestCompletedFull : Int := 20
/-- RequestCompletedPartial means the response is completed only in part. -/
def RequestCompletedPartial : Int := 21
/-- RequestRejected means the node did not accept the incoming request. -/
def RequestRejected : Int := 30
/-- RequestFailedBusy means the node is too busy. -/
def RequestFailedBusy : Int := 31
/-- RequestFailedUnknown means the request failed for an unspecified reason. -/
def RequestFailedUnknown : Int := 32
/-- RequestFailedLegal means the request failed for legal reasons. -/
def RequestFailedLegal : Int := 33
/-- RequestFailedContentNotFound means the respondent does not have the content. -/
def RequestFailedContentNotFound : Int := 34

/-- IsTerminalSuccessCode, from message/message.go. -/
def IsTerminalSuccessCode (status : Int) : Bool :=
  status == RequestCompletedFull || status == RequestCompletedPartial

/-- IsTerminalFailureCode, from message/message.go (note: RequestRejected absent). -/
def IsTerminalFailureCode (status : Int) : Bool :=
  status == RequestFailedBusy ||
    status == RequestFailedContentNotFound ||
    status == RequestFailedLegal ||
    status == RequestFailedUnknown

/-- IsTerminalResponseCode, from message/message.go. -/
def IsTerminalResponseCode (status : Int) : Bool :=
  IsTerminalSuccessCode status || IsTerminalFailureCode status

/-- GraphSyncRequest, from message/message.go. -/
structure GraphSyncRequest where
  selector : List Nat
  priority : Int
  id : Int
  isCancel : Bool
deriving DecidableEq

/-- GraphSyncResponse, from message/message.go. -/
structure GraphSyncResponse where
  requestID : Int
  status : Int
  extra : List Nat
deriving DecidableEq

/-- Content address: self-describing prefix bytes plus the multihash digest of
the payload.  The hash is modelled as a collision-free function, here taken to
be the identity on the payload bytes (the cid library is an external
collaborator of the spec). -/
structure Cid where
  pfx : List Nat
  digest : List Nat
deriving DecidableEq

/-- A content-addressed block: its cid and its raw payload bytes. -/
structure Block where
  cid : Cid
  data : List Nat
deriving DecidableEq

/-- Models `cid.Prefix.Sum(data)`: recompute the content address of `data`
under prefix `p` (hash modelled as identity). -/
def cidSum (p : List Nat) (data : List Nat) : Cid :=
  { pfx := p, digest := data }

/-- Models `cid.PrefixFromBytes`: parse prefix bytes back into a prefix; the
byte representation is exact in this model, so parsing genuine prefix bytes
succeeds. -/
def prefixFromBytes (bs : List Nat) : Option (List Nat) :=
  some bs

/-- Models `blocks.NewBlockWithCid(data, c)`. -/
def newBlockWithCid (data : List Nat) (c : Cid) : Block :=
  { cid := c, data := data }

/-- newRequest, from message/message.go. -/
def newRequest (id : Int) (selector : List Nat) (priority : Int) (isCancel : Bool) :
    GraphSyncRequest :=
  { id := id, selector := selector, priority := priority, isCancel := isCancel }

/-- NewRequest, from message/message.go. -/
def NewRequest (id : Int) (selector : List Nat) (priority : Int) : GraphSyncRequest :=
  newRequest id selector priority false

/-- CancelRequest, from message/message.go: a request to cancel an in-progress
request (nil selector, priority 0, cancel flag set). -/
def CancelRequest (id : Int) : GraphSyncRequest :=
  newRequest id [] 0 true

/-- NewResponse, from message/message.go. -/
def NewResponse (requestID : Int) (status : Int) (extra : List Nat) : GraphSyncResponse :=
  { requestID := requestID, status := status, extra := extra }

/-- graphSyncMessage, from message/message.go: three maps keyed by request id,
request id, and content address respectively. -/
structure GraphSyncMessage where
  requests : List (Int × GraphSyncRequest)
  responses : List (Int × GraphSyncResponse)
  blocks : List (Cid × Block)
deriving DecidableEq

/-- newMsg, from message/message.go. -/
def newMsg : GraphSyncMessage :=
  { requests := [], responses := [], blocks := [] }

/-- AddRequest, from message/message.go. -/
def AddRequest (gsm : GraphSyncMessage) (r : GraphSyncRequest) : GraphSyncMessage :=
  { gsm with requests := upsert r.id r gsm.requests }

/-- AddResponse, from message/message.go. -/
def AddResponse (gsm : GraphSyncMessage) (r : GraphSyncResponse) : GraphSyncMessage :=
  { gsm with responses := upsert r.requestID r gsm.responses }

/-- AddBlock, from message/message.go. -/
def AddBlock (gsm : GraphSyncMessage) (b : Block) : GraphSyncMessage :=
  { gsm with blocks := upsert b.cid b gsm.blocks }

/-- Empty, from message/message.go. -/
def GraphSyncMessage.Empty (gsm : GraphSyncMessage) : Bool :=
  gsm.blocks.length == 0 && gsm.requests.length == 0 && gsm.responses.length == 0

/-- Blocks accessor, from message/message.go. -/
def GraphSyncMessage.Blocks (gsm : GraphSyncMessage) : List Block :=
  gsm.blocks.map (fun e => e.2)

/-- pb.Message_Request wire record. -/
structure PbRequest where
  id : Int
  selector : List Nat
  priority : Int
  cancel : Bool
deriving DecidableEq

/-- pb.Message_Response wire record. -/
structure PbResponse where
  id : Int
  status : Int
  extra : List Nat
deriving DecidableEq

/-- pb.Message_Block wire record. -/
structure PbBlock where
  pfx : List Nat
  data : List Nat
deriving DecidableEq

/-- pb.Message wire record. -/
structure PbMessage where
  requests : List PbRequest
  responses : List PbResponse
  data : List PbBlock
deriving DecidableEq

/-- ToProto, from message/message.go. -/
def ToProto (gsm : GraphSyncMessage) : PbMessage :=
  { requests := gsm.requests.map (fun e =>
      { id := e.2.id, selector := e.2.selector, priority := e.2.priority,
        cancel := e.2.isCancel })
    responses := gsm.responses.map (fun e =>
      { id := e.2.requestID, status := e.2.status, extra := e.2.extra })
    data := gsm.Blocks.map (fun b => { pfx := b.cid.pfx, data := b.data }) }

/-- The block-decoding loop of newMessageFromProto: each wire block's prefix is
parsed, the cid recomputed from prefix and payload, and the block added; a
parse failure aborts the whole decode. -/
def addBlocksFromProto (gsm : GraphSyncMessage) : List PbBlock → Option GraphSyncMessage
  | [] => some gsm
  | b :: rest =>
    match prefixFromBytes b.pfx with
    | none => none
    | some pref =>
      let c := cidSum pref b.data
      let blk := newBlockWithCid b.data c
      addBlocksFromProto (AddBlock gsm blk) rest

/-- newMessageFromProto, from message/message.go. -/
def newMessageFromProto (pbm : PbMessage) : Option GraphSyncMessage :=
  let gsm1 := pbm.requests.foldl
    (fun g req => AddRequest g (newRequest req.id req.selector req.priority req.cancel))
    newMsg
  let gsm2 := pbm.responses.foldl
    (fun g res => AddResponse g (NewResponse res.id res.status res.extra))
    gsm1
  addBlocksFromProto gsm2 pbm.data

/-- Well-formedness of an in-memory message: each map entry is keyed by its
natural key, keys are unique, and every block's stored cid is the content
address of its payload. -/
def WFMsg (m : GraphSyncMessage) : Prop :=
  (∀ e ∈ m.requests, e.2.id = e.1) ∧
    (m.requests.map Prod.fst).Nodup ∧
    (∀ e ∈ m.responses, e.2.requestID = e.1) ∧
    (m.responses.map Prod.fst).Nodup ∧
    (∀ e ∈ m.blocks, e.2.cid = e.1 ∧ e.2.cid.digest = e.2.data) ∧
    (m.blocks.map Prod.fst).Nodup

instance (m : GraphSyncMessage) : Decidable (WFMsg m) := by
  unfold WFMsg; infer_instance

/-! ## Peer manager (peermanager/peermanager.go) -/

/-- peerProcessInstance, from peermanager/peermanager.go: a refcount plus the
per-peer worker process (identified here by a number handed out by the
factory). -/
structure PeerProcessInstance where
  refcnt : Int
  process : Nat
deriving DecidableEq

/-- PeerManager state: the peer → instance map, the factory's supply of fresh
worker processes, and logs of the Startup and Shutdown calls made so far (in
call order). -/
structure PMState where
  peerProcesses : List (Nat × PeerProcessInstance)
  nextProcess : Nat
  started : List Nat
  shutdownLog : List Nat
deriving DecidableEq

/-- `New`, from peermanager/peermanager.go. -/
def initPM : PMState :=
  { peerProcesses := [], nextProcess := 0, started := [], shutdownLog := [] }

/-- getOrCreate, from peermanager/peermanager.go: look up or create (factory +
Startup, refcount 0) the instance for a peer. -/
def getOrCreate (p : Nat) (st : PMState) : PeerProcessInstance × PMState :=
  match alookup p st.peerProcesses with
  | some pqi => (pqi, st)
  | none =>
    let pq := st.nextProcess
    let pqi : PeerProcessInstance := { refcnt := 0, process := pq }
    (pqi, { st with
              peerProcesses := st.peerProcesses ++ [(p, pqi)],
              nextProcess := st.nextProcess + 1,
              started := st.started ++ [pq] })

/-- Connected, from peermanager/peermanager.go. -/
def Connected (p : Nat) (st : PMState) : PMState :=
  let st1 := (getOrCreate p st).2
  { st1 with peerProcesses :=
      updateAt p (fun i => { i with refcnt := i.refcnt + 1 }) st1.peerProcesses }

/-- Disconnected, from peermanager/peermanager.go. -/
def Disconnected (p : Nat) (st : PMState) : PMState :=
  match alookup p st.peerProcesses with
  | none => st
  | some pqi =>
    let r := pqi.refcnt - 1
    if 0 < r then
      { st with peerProcesses :=
          updateAt p (fun i => { i with refcnt := r }) st.peerProcesses }
    else
      { st with peerProcesses := eraseKey p st.peerProcesses,
                shutdownLog := st.shutdownLog ++ [pqi.process] }

/-- GetProcess, from peermanager/peermanager.go. -/
def GetProcess (p : Nat) (st : PMState) : Nat × PMState :=
  let r := getOrCreate p st
  (r.1.process, r.2)

/-- ConnectedPeers, from peermanager/peermanager.go. -/
def ConnectedPeers (st : PMState) : List Nat :=
  st.peerProcesses.map Prod.fst

/-- The public operations of the PeerManager. -/
inductive PMOp where
  | connected (p : Nat)
  | disconnected (p : Nat)
  | getProcess (p : Nat)
  | connectedPeers
deriving DecidableEq

/-- One public call against the PeerManager state (`connectedPeers` is
read-only). -/
def PMStep (st : PMState) : PMOp → PMState
  | .connected p => Connected p st
  | .disconnected p => Disconnected p st
  | .getProcess p => (GetProcess p st).2
  | .connectedPeers => st

/-- Run a call sequence against a fresh PeerManager. -/
def PMRun (ops : List PMOp) : PMState :=
  ops.foldl PMStep initPM

/-- Invariant of reachable PeerManager states. -/
def PMInv (st : PMState) : Prop :=
  (∀ e ∈ st.peerProcesses, 0 ≤ e.2.refcnt) ∧
    (st.peerProcesses.map Prod.fst).Nodup ∧
    (st.peerProcesses.map (fun e => e.2.process)).Nodup ∧
    (∀ e ∈ st.peerProcesses, e.2.process < st.nextProcess) ∧
    (∀ q ∈ st.shutdownLog, q < st.nextProcess) ∧
    st.shutdownLog.Nodup ∧
    (∀ e ∈ st.peerProcesses, e.2.process ∉ st.shutdownLog)

/-! ## Request manager (requestmanager/requestmanager.go) -/

/-- inProgressRequestStatus, from requestmanager/requestmanager.go; the
context, cancel function and network-error channel are modelled through the
event trace, leaving the recorded destination peer. -/
structure InProgressRequestStatus where
  p : Nat
deriving DecidableEq

/-- The request manager's event-loop state: the id counter and the in-progress
request map. -/
structure RMState where
  nextRequestID : Int
  inProgressRequestStatuses : List (Int × InProgressRequestStatus)
deriving DecidableEq

/-- Zero-valued request manager state at startup. -/
def initRMState : RMState :=
  { nextRequestID := 0, inProgressRequestStatuses := [] }

/-- Observable side effects of the request manager's event-loop handlers. -/
inductive RMEvent where
  | processResponse (md : List (Int × List Nat)) (blks : List Block)
  | completeResponsesFor (requestID : Int)
  | publishError (requestID : Int) (err : String)
  | cancelTraversal (requestID : Int)
  | sendRequest (p : Nat) (request : GraphSyncRequest)
  | removeEntry (requestID : Int)
deriving DecidableEq

/-- filterResponsesForPeer, from requestmanager/requestmanager.go: keep the
responses whose request id has an in-progress entry recorded for this peer. -/
def filterResponsesForPeer (st : RMState) (responses : List GraphSyncResponse) (p : Nat) :
    List GraphSyncResponse :=
  responses.filter (fun response =>
    match alookup response.requestID st.inProgressRequestStatuses with
    | none => false
    | some requestStatus => requestStatus.p == p)

/-- Modelled from the spec: metadataForResponses (requestmanager/utils, not
under src/) decodes each filtered response's extra bytes into the metadata for
its request id; the decoded payload is abstracted as the raw extra bytes,
keyed by request id. -/
def metadataForResponses (responses : List GraphSyncResponse) : List (Int × List Nat) :=
  responses.map (fun r => (r.requestID, r.extra))

/-- generateResponseErrorFromStatus, from requestmanager/requestmanager.go
(errors modelled by their message strings). -/
def generateResponseErrorFromStatus (status : Int) : String :=
  if status = RequestFailedBusy then ("Request Failed - Peer Is Busy")
  else if status = RequestFailedContentNotFound then ("Request Failed - Content Not Found")
  else if status = RequestFailedLegal then ("Request Failed - For Legal Reasons")
  else if status = RequestFailedUnknown then ("Request Failed - Unknown Reason")
  else ("Unknown")

/-- processTerminations, from requestmanager/requestmanager.go.  For a
terminal-failure response the Go code indexes the in-progress map and
dereferences the resulting pointer without checking presence; a missing entry
is therefore a nil-pointer dereference, modelled as `none`. -/
def processTerminations (st : RMState) :
    List GraphSyncResponse → Option (RMState × List RMEvent)
  | [] => some (st, [])
  | response :: rest =>
    if IsTerminalResponseCode response.status then
      let erased := eraseKey response.requestID st.inProgressRequestStatuses
      let st' : RMState := { st with inProgressRequestStatuses := erased }
      if IsTerminalFailureCode response.status then
        match alookup response.requestID st.inProgressRequestStatuses with
        | none => none
        | some _ =>
          match processTerminations st' rest with
          | none => none
          | some (st'', evs) =>
            some (st'',
              RMEvent.publishError response.requestID
                  (generateResponseErrorFromStatus response.status) ::
                RMEvent.cancelTraversal response.requestID ::
                RMEvent.completeResponsesFor response.requestID ::
                RMEvent.removeEntry response.requestID :: evs)
      else
        match processTerminations st' rest with
        | none => none
        | some (st'', evs) =>
          some (st'',
            RMEvent.completeResponsesFor response.requestID ::
              RMEvent.removeEntry response.requestID :: evs)
    else
      processTerminations st rest

/-- processResponseMessage.handle, from requestmanager/requestmanager.go:
filter the batch to this peer's in-progress requests, forward the filtered
metadata and all blocks to the async loader, then process terminations. -/
def processResponseMessage_handle (st : RMState) (p : Nat)
    (responses : List GraphSyncResponse) (blks : List Block) :
    Option (RMState × List RMEvent) :=
  let filteredResponses := filterResponsesForPeer st responses p
  let responseMetadata := metadataForResponses filteredResponses
  match processTerminations st filteredResponses with
  | none => none
  | some (st', evs) =>
    some (st', RMEvent.processResponse responseMetadata blks :: evs)

/-- cancelRequestMessage.handle, from requestmanager/requestmanager.go: on a
live entry, send a cancel frame to the recorded peer, remove the entry, cancel
the traversal; otherwise do nothing. -/
def cancelRequestMessage_handle (st : RMState) (requestID : Int) :
    RMState × List RMEvent :=
  match alookup requestID st.inProgressRequestStatuses with
  | none => (st, [])
  | some inProgressRequestStatus =>
    ({ st with inProgressRequestStatuses :=
        eraseKey requestID st.inProgressRequestStatuses },
     [RMEvent.sendRequest inProgressRequestStatus.p (CancelRequest requestID),
      RMEvent.removeEntry requestID,
      RMEvent.cancelTraversal requestID])

/-- Two's-complement wraparound of Go `int32` arithmetic. -/
def int32wrap (n : Int) : Int :=
  (n + 2147483648) % 4294967296 - 2147483648

/-- The id-assignment prefix of newRequestMessage.handle, from
requestmanager/requestmanager.go: `requestID := rm.nextRequestID;
rm.nextRequestID++` on the int32 counter. -/
def newRequestMessage_assignID (st : RMState) : Int × RMState :=
  (st.nextRequestID, { st with nextRequestID := int32wrap (st.nextRequestID + 1) })

/-- Request manager state after `n` newRequest events from startup. -/
def rmStateAfterRequests : Nat → RMState
  | 0 => initRMState
  | n + 1 => (newRequestMessage_assignID (rmStateAfterRequests n)).2

/-- The request id handed to the `n`-th newRequest event (0-based). -/
def assignedRequestID (n : Nat) : Int :=
  (newRequestMessage_assignID (rmStateAfterRequests n)).1

/-- The selector bridge, an external collaborator: validation yields a list of
validation errors. -/
structure IPLDBridge where
  ValidateSelectorSpec : Nat → List String

/-- Caller-visible result streams, each a finite list of values followed by
stream closure. -/
structure StreamResult where
  progress : List Nat
  errors : List String
deriving DecidableEq

/-- singleErrorResponse, from requestmanager/requestmanager.go: a closed empty
progress stream and an error stream holding exactly one error. -/
def singleErrorResponse (err : String) : StreamResult :=
  { progress := [], errors := [err] }

/-- Outcome of the synchronous part of SendRequest: either a result returned
immediately (no event posted to the loop) or a newRequest event posted. -/
inductive SendRequestOutcome where
  | immediate (res : StreamResult)
  | posted (selector : Nat)
deriving DecidableEq

/-- The selector-validation path of RequestManager.SendRequest, from
requestmanager/requestmanager.go. -/
def SendRequest (bridge : IPLDBridge) (cidRootedSelector : Nat) : SendRequestOutcome :=
  if (bridge.ValidateSelectorSpec cidRootedSelector).length ≠ 0 then
    SendRequestOutcome.immediate (singleErrorResponse ("Invalid Selector Spec"))
  else
    SendRequestOutcome.posted cidRootedSelector

/-! ## Lemmas about the map helpers -/

theorem alookup_eq_some_mem {κ α : Type} [DecidableEq κ] {k : κ} {v : α} :
    ∀ {l : List (κ × α)}, alookup k l = some v → (k, v) ∈ l := by
  intro l
  induction l with
  | nil => intro h; simp [alookup] at h
  | cons e rest ih =>
    intro h
    by_cases he : e.1 = k
    · simp only [alookup] at h
      rw [if_pos he] at h
      simp only [Option.some.injEq] at h
      subst h
      subst he
      exact List.mem_cons_self e rest
    · simp only [alookup] at h
      rw [if_neg he] at h
      exact List.mem_cons_of_mem e (ih h)

theorem alookup_eq_none_iff {κ α : Type} [DecidableEq κ] {k : κ} :
    ∀ {l : List (κ × α)}, alookup k l = none ↔ k ∉ l.map Prod.fst := by
  intro l
  induction l with
  | nil => simp [alookup]
  | cons e rest ih =>
    simp only [alookup, List.map_cons, List.mem_cons]
    by_cases he : e.1 = k
    · rw [if_pos he]
      constructor
      · intro h
        exact Option.noConfusion h
      · intro h
        exact absurd (Or.inl he.symm) h
    · rw [if_neg he]
      rw [ih]
      constructor
      · intro hn
        rintro (hk | hk)
        · exact he hk.symm
        · exact hn hk
      · intro hn hk
        exact hn (Or.inr hk)

theorem mem_eraseKey {κ α : Type} [DecidableEq κ] {k : κ} {e : κ × α} {l : List (κ × α)} :
    e ∈ eraseKey k l ↔ e ∈ l ∧ e.1 ≠ k := by
  simp [eraseKey, List.mem_filter]

theorem alookup_eraseKey_self {κ α : Type} [DecidableEq κ] (k : κ) (l : List (κ × α)) :
    alookup k (eraseKey k l) = none := by
  rw [alookup_eq_none_iff]
  intro hmem
  rcases List.mem_map.mp hmem with ⟨e, he, hfst⟩
  exact (mem_eraseKey.mp he).2 hfst

theorem eraseKey_of_not_mem {κ α : Type} [DecidableEq κ] {k : κ} {l : List (κ × α)}
    (h : k ∉ l.map Prod.fst) : eraseKey k l = l := by
  apply List.filter_eq_self.mpr
  intro e he
  simp only [decide_eq_true_eq]
  intro hek
  exact h (List.mem_map.mpr ⟨e, he, hek⟩)

theorem keys_eraseKey_sublist {κ α β : Type} [DecidableEq κ] (k : κ) (l : List (κ × α))
    (f : κ × α → β) : ((eraseKey k l).map f).Sublist (l.map f) :=
  List.Sublist.map f (List.filter_sublist l)

theorem keys_updateAt {κ α : Type} [DecidableEq κ] (k : κ) (f : α → α) (l : List (κ × α)) :
    (updateAt k f l).map Prod.fst = l.map Prod.fst := by
  induction l with
  | nil => rfl
  | cons e rest ih =>
    by_cases he : e.1 = k <;> simp [updateAt, he] at ih ⊢ <;> exact ih

theorem mem_updateAt {κ α : Type} [DecidableEq κ] {k : κ} {f : α → α} {l : List (κ × α)}
    {e : κ × α} (h : e ∈ updateAt k f l) :
    ∃ e' ∈ l, e = (if e'.1 = k then (e'.1, f e'.2) else e') := by
  rcases List.mem_map.mp h with ⟨e', he', heq⟩
  exact ⟨e', he', heq.symm⟩

theorem foldl_upsert {κ α : Type} [DecidableEq κ] :
    ∀ (l acc : List (κ × α)),
      (∀ e ∈ l, e.1 ∉ acc.map Prod.fst) → (l.map Prod.fst).Nodup →
      l.foldl (fun g e => upsert e.1 e.2 g) acc = acc ++ l := by
  intro l
  induction l with
  | nil => intro acc _ _; simp
  | cons e rest ih =>
    intro acc hdisj hnodup
    have hkey : e.1 ∉ acc.map Prod.fst := hdisj e (List.mem_cons_self e rest)
    have hstep : upsert e.1 e.2 acc = acc ++ [e] := by
      rw [upsert, eraseKey_of_not_mem hkey]
    simp only [List.foldl_cons, hstep]
    have hnodup' : (rest.map Prod.fst).Nodup := by
      simp only [List.map_cons, List.nodup_cons] at hnodup
      exact hnodup.2
    have hhead : e.1 ∉ rest.map Prod.fst := by
      simp only [List.map_cons, List.nodup_cons] at hnodup
      exact hnodup.1
    have hdisj' : ∀ e' ∈ rest, e'.1 ∉ (acc ++ [e]).map Prod.fst := by
      intro e' he'
      simp only [List.map_append, List.mem_append, List.map_cons, List.map_nil,
        List.mem_singleton]
      rintro (hc | hc)
      · exact hdisj e' (List.mem_cons_of_mem e he') hc
      · exact hhead (hc ▸ List.mem_map.mpr ⟨e', he', rfl⟩)
    rw [ih (acc ++ [e]) hdisj' hnodup']
    simp

/-! ## Round-trip lemmas for the wire codec -/

theorem foldl_upsert_key_congr {κ α : Type} [DecidableEq κ] (f : α → κ) :
    ∀ (l : List (κ × α)) (acc : List (κ × α)), (∀ e ∈ l, f e.2 = e.1) →
      l.foldl (fun rs e => upsert (f e.2) e.2 rs) acc =
        l.foldl (fun rs e => upsert e.1 e.2 rs) acc := by
  intro l
  induction l with
  | nil => intro acc _; rfl
  | cons e rest ih =>
    intro acc hkeys
    have hid : f e.2 = e.1 := hkeys e (List.mem_cons_self e rest)
    simp only [List.foldl_cons]
    rw [hid, ih _ (fun x hx => hkeys x (List.mem_cons_of_mem e hx))]

theorem foldl_addRequest_split :
    ∀ (l : List (Int × GraphSyncRequest)) (g : GraphSyncMessage),
      ((l.map (fun e => PbRequest.mk e.2.id e.2.selector e.2.priority e.2.isCancel)).foldl
          (fun g2 req => AddRequest g2 (newRequest req.id req.selector req.priority req.cancel))
          g) =
        { g with requests := l.foldl (fun rs e => upsert e.2.id e.2 rs) g.requests } := by
  intro l
  induction l with
  | nil => intro g; rfl
  | cons e rest ih =>
    intro g
    simp only [List.map_cons, List.foldl_cons]
    rw [ih]
    rfl

theorem foldl_addResponse_split :
    ∀ (l : List (Int × GraphSyncResponse)) (g : GraphSyncMessage),
      ((l.map (fun e => PbResponse.mk e.2.requestID e.2.status e.2.extra)).foldl
          (fun g2 res => AddResponse g2 (NewResponse res.id res.status res.extra)) g) =
        { g with responses := l.foldl (fun rs e => upsert e.2.requestID e.2 rs) g.responses } := by
  intro l
  induction l with
  | nil => intro g; rfl
  | cons e rest ih =>
    intro g
    simp only [List.map_cons, List.foldl_cons]
    rw [ih]
    rfl

theorem addBlocks_split :
    ∀ (l : List (Cid × Block)) (g : GraphSyncMessage),
      (∀ e ∈ l, e.2.cid = e.1 ∧ e.2.cid.digest = e.2.data) →
      addBlocksFromProto g
          ((l.map (fun e => e.2)).map (fun b => PbBlock.mk b.cid.pfx b.data)) =
        some { g with blocks := l.foldl (fun bs e => upsert e.1 e.2 bs) g.blocks } := by
  intro l
  induction l with
  | nil => intro g _; rfl
  | cons e rest ih =>
    intro g hwf
    have hhead := hwf e (List.mem_cons_self e rest)
    have htail : ∀ x ∈ rest, x.2.cid = x.1 ∧ x.2.cid.digest = x.2.data :=
      fun x hx => hwf x (List.mem_cons_of_mem e hx)
    obtain ⟨ek, eb⟩ := e
    obtain ⟨ec, ed⟩ := eb
    obtain ⟨ep, eg⟩ := ec
    simp only at hhead
    obtain ⟨hc, hd⟩ := hhead
    subst hd
    subst hc
    simp only [List.map_cons, addBlocksFromProto, prefixFromBytes]
    rw [ih _ htail]
    rfl

/-! ## Request-id assignment: closed form -/

theorem rmStateAfter_nextRequestID (n : Nat) :
    (rmStateAfterRequests n).nextRequestID = int32wrap n := by
  induction n with
  | zero =>
    show (0 : Int) = int32wrap 0
    decide
  | succ n ih =>
    show int32wrap ((rmStateAfterRequests n).nextRequestID + 1) = int32wrap (↑(n + 1))
    rw [ih]
    unfold int32wrap
    push_cast
    omega

theorem assignedRequestID_closed (n : Nat) : assignedRequestID n = int32wrap n :=
  rmStateAfter_nextRequestID n

/-! ## Peer manager invariant -/

theorem procs_updateAt (k : Nat) (f : PeerProcessInstance → PeerProcessInstance)
    (hf : ∀ a, (f a).process = a.process) :
    ∀ l : List (Nat × PeerProcessInstance),
      (updateAt k f l).map (fun e => e.2.process) = l.map (fun e => e.2.process) := by
  intro l
  induction l with
  | nil => rfl
  | cons e rest ih =>
    have hcons : updateAt k f (e :: rest) =
        (if e.1 = k then (e.1, f e.2) else e) :: updateAt k f rest := rfl
    rw [hcons]
    simp only [List.map_cons]
    rw [ih]
    congr 1
    by_cases he : e.1 = k
    · rw [if_pos he]
      exact hf e.2
    · rw [if_neg he]

theorem PMInv_updateAt (p : Nat) (f : PeerProcessInstance → PeerProcessInstance)
    (st : PMState) (hf : ∀ a, (f a).process = a.process)
    (hr : ∀ a, 0 ≤ a.refcnt → 0 ≤ (f a).refcnt) (h : PMInv st) :
    PMInv { st with peerProcesses := updateAt p f st.peerProcesses } := by
  obtain ⟨h1, h2, h3, h4, h5, h6, h7⟩ := h
  refine ⟨?_, ?_, ?_, ?_, h5, h6, ?_⟩
  · intro e he
    obtain ⟨e', he', hcase⟩ := mem_updateAt he
    by_cases hk : e'.1 = p
    · rw [if_pos hk] at hcase
      rw [hcase]
      exact hr e'.2 (h1 e' he')
    · rw [if_neg hk] at hcase
      rw [hcase]
      exact h1 e' he'
  · rw [keys_updateAt]
    exact h2
  · rw [procs_updateAt p f hf]
    exact h3
  · intro e he
    obtain ⟨e', he', hcase⟩ := mem_updateAt he
    by_cases hk : e'.1 = p
    · rw [if_pos hk] at hcase
      rw [hcase]
      simp only [hf]
      exact h4 e' he'
    · rw [if_neg hk] at hcase
      rw [hcase]
      exact h4 e' he'
  · intro e he
    obtain ⟨e', he', hcase⟩ := mem_updateAt he
    by_cases hk : e'.1 = p
    · rw [if_pos hk] at hcase
      rw [hcase]
      simp only [hf]
      exact h7 e' he'
    · rw [if_neg hk] at hcase
      rw [hcase]
      exact h7 e' he'

theorem PMInv_getOrCreate (p : Nat) (st : PMState) (h : PMInv st) :
    PMInv (getOrCreate p st).2 := by
  obtain ⟨h1, h2, h3, h4, h5, h6, h7⟩ := h
  unfold getOrCreate
  cases hk : alookup p st.peerProcesses with
  | some pqi => exact ⟨h1, h2, h3, h4, h5, h6, h7⟩
  | none =>
    have hpk : p ∉ st.peerProcesses.map Prod.fst := alookup_eq_none_iff.mp hk
    refine ⟨?_, ?_, ?_, ?_, ?_, h6, ?_⟩
    · intro e he
      rcases List.mem_append.mp he with hmem | hmem
      · exact h1 e hmem
      · rcases List.mem_singleton.mp hmem with rfl
        exact le_refl 0
    · simp only [List.map_append, List.map_cons, List.map_nil]
      rw [List.nodup_append]
      refine ⟨h2, List.nodup_singleton p, ?_⟩
      intro a ha hb
      rcases List.mem_singleton.mp hb with rfl
      exact hpk ha
    · simp only [List.map_append, List.map_cons, List.map_nil]
      rw [List.nodup_append]
      refine ⟨h3, List.nodup_singleton _, ?_⟩
      intro a ha hb
      rcases List.mem_singleton.mp hb with rfl
      rcases List.mem_map.mp ha with ⟨e, he, hpe⟩
      exact absurd hpe (Nat.ne_of_lt (h4 e he))
    · intro e he
      rcases List.mem_append.mp he with hmem | hmem
      · exact Nat.lt_succ_of_lt (h4 e hmem)
      · rcases List.mem_singleton.mp hmem with rfl
        exact Nat.lt_succ_self _
    · intro q hq
      exact Nat.lt_succ_of_lt (h5 q hq)
    · intro e he
      rcases List.mem_append.mp he with hmem | hmem
      · exact h7 e hmem
      · rcases List.mem_singleton.mp hmem with rfl
        intro hmem2
        exact absurd rfl (Nat.ne_of_lt (h5 _ hmem2))

theorem PMInv_connected (p : Nat) (st : PMState) (h : PMInv st) :
    PMInv (Connected p st) := by
  unfold Connected
  exact PMInv_updateAt p _ _ (fun a => rfl)
    (fun a ha => by
      show (0 : Int) ≤ a.refcnt + 1
      omega) (PMInv_getOrCreate p st h)

theorem PMInv_disconnected (p : Nat) (st : PMState) (h : PMInv st) :
    PMInv (Disconnected p st) := by
  cases hk : alookup p st.peerProcesses with
  | none =>
    have hD : Disconnected p st = st := by
      unfold Disconnected
      rw [hk]
    rw [hD]
    exact h
  | some pqi =>
    obtain ⟨h1, h2, h3, h4, h5, h6, h7⟩ := h
    have hmem : (p, pqi) ∈ st.peerProcesses := alookup_eq_some_mem hk
    have hD : Disconnected p st =
        (if 0 < pqi.refcnt - 1 then
          { st with peerProcesses :=
              updateAt p (fun i => { i with refcnt := pqi.refcnt - 1 }) st.peerProcesses }
        else
          { st with peerProcesses := eraseKey p st.peerProcesses,
                    shutdownLog := st.shutdownLog ++ [pqi.process] }) := by
      unfold Disconnected
      rw [hk]
    rw [hD]
    by_cases hr : 0 < pqi.refcnt - 1
    · rw [if_pos hr]
      exact PMInv_updateAt p _ _ (fun a => rfl)
        (fun a _ => le_of_lt hr) ⟨h1, h2, h3, h4, h5, h6, h7⟩
    · rw [if_neg hr]
      refine ⟨?_, ?_, ?_, ?_, ?_, ?_, ?_⟩
      · intro e he
        exact h1 e (mem_eraseKey.mp he).1
      · exact List.Nodup.sublist (keys_eraseKey_sublist p st.peerProcesses Prod.fst) h2
      · exact List.Nodup.sublist
          (keys_eraseKey_sublist p st.peerProcesses (fun e => e.2.process)) h3
      · intro e he
        exact h4 e (mem_eraseKey.mp he).1
      · intro q hq
        rcases List.mem_append.mp hq with hmem2 | hmem2
        · exact h5 q hmem2
        · rcases List.mem_singleton.mp hmem2 with rfl
          exact h4 _ hmem
      · simp only
        rw [List.nodup_append]
        refine ⟨h6, List.nodup_singleton _, ?_⟩
        intro a ha hb
        rcases List.mem_singleton.mp hb with rfl
        exact h7 _ hmem ha
      · intro e he
        obtain ⟨hel, hne⟩ := mem_eraseKey.mp he
        intro hlog
        rcases List.mem_append.mp hlog with hmem2 | hmem2
        · exact h7 e hel hmem2
        · rcases List.mem_singleton.mp hmem2 with heq
          have : e = (p, pqi) :=
            List.inj_on_of_nodup_map h3 hel hmem (List.mem_singleton.mp hmem2)
          exact hne (congrArg Prod.fst this)

theorem PMInv_step (st : PMState) (op : PMOp) (h : PMInv st) : PMInv (PMStep st op) := by
  cases op with
  | connected p => exact PMInv_connected p st h
  | disconnected p => exact PMInv_disconnected p st h
  | getProcess p => exact PMInv_getOrCreate p st h
  | connectedPeers => exact h

theorem PMInv_init : PMInv initPM := by
  refine ⟨?_, ?_, ?_, ?_, ?_, ?_, ?_⟩ <;> simp [initPM]

theorem PMInv_run (ops : List PMOp) : PMInv (PMRun ops) := by
  have haux : ∀ (l : List PMOp) (st : PMState), PMInv st → PMInv (l.foldl PMStep st) := by
    intro l
    induction l with
    | nil => intro st h; exact h
    | cons op rest ih =>
      intro st h
      exact ih _ (PMInv_step st op h)
  exact haux ops initPM PMInv_init

theorem foldl_upsert_req_key (l : List (Int × GraphSyncRequest))
    (acc : List (Int × GraphSyncRequest)) (h : ∀ e ∈ l, e.2.id = e.1) :
    l.foldl (fun rs e => upsert e.2.id e.2 rs) acc =
      l.foldl (fun rs e => upsert e.1 e.2 rs) acc :=
  foldl_upsert_key_congr (fun r => r.id) l acc h

theorem foldl_upsert_res_key (l : List (Int × GraphSyncResponse))
    (acc : List (Int × GraphSyncResponse)) (h : ∀ e ∈ l, e.2.requestID = e.1) :
    l.foldl (fun rs e => upsert e.2.requestID e.2 rs) acc =
      l.foldl (fun rs e => upsert e.1 e.2 rs) acc :=
  foldl_upsert_key_congr (fun r => r.requestID) l acc h

/-! ## Claim theorems -/

/-- Claim C1.  The spec's status table and the constant block's own grouping
say status 30 (RequestRejected) is a terminal-failure code, but
IsTerminalFailureCode tests only 31, 32, 33 and 34, so both it and
IsTerminalResponseCode return false at 30 while returning the expected values
on every other code of the table. -/
theorem terminalFailureCode_excludes_requestRejected :
    IsTerminalFailureCode RequestRejected = false ∧
      IsTerminalResponseCode RequestRejected = false ∧
      IsTerminalFailureCode RequestFailedBusy = true ∧
      IsTerminalFailureCode RequestFailedUnknown = true ∧
      IsTerminalFailureCode RequestFailedLegal = true ∧
      IsTerminalFailureCode RequestFailedContentNotFound = true ∧
      IsTerminalResponseCode RequestCompletedFull = true ∧
      IsTerminalResponseCode RequestCompletedPartial = true := by
  decide

/-- Claim C2, counterexample.  The claim maps every status outside 31/33/34 to
the error text for unknown reasons, but generateResponseErrorFromStatus's
default branch returns the bare text at status 30 (and any other
status outside 31-34). -/
theorem generateResponseError_default_cex :
    generateResponseErrorFromStatus 30 = "Unknown" ∧
      generateResponseErrorFromStatus 30 ≠ "Request Failed - Unknown Reason" := by
  constructor
  · rfl
  · decide

/-- Claim C2, amended.  generateResponseErrorFromStatus maps 31, 33, 34 and 32
to their documented error strings, and every status outside 31-34 to the
default error text rather than the unknown-reason text. -/
theorem generateResponseError_amended :
    generateResponseErrorFromStatus 31 = "Request Failed - Peer Is Busy" ∧
      generateResponseErrorFromStatus 33 = "Request Failed - For Legal Reasons" ∧
      generateResponseErrorFromStatus 34 = "Request Failed - Content Not Found" ∧
      generateResponseErrorFromStatus 32 = "Request Failed - Unknown Reason" ∧
      ∀ status : Int, status ≠ 31 → status ≠ 32 → status ≠ 33 → status ≠ 34 →
        generateResponseErrorFromStatus status = "Unknown" := by
  refine ⟨rfl, rfl, rfl, rfl, ?_⟩
  intro status h31 h32 h33 h34
  unfold generateResponseErrorFromStatus
  rw [if_neg (by simpa [RequestFailedBusy] using h31),
    if_neg (by simpa [RequestFailedContentNotFound] using h34),
    if_neg (by simpa [RequestFailedLegal] using h33),
    if_neg (by simpa [RequestFailedUnknown] using h32)]

/-- Witness for the amended C2 theorem at the concrete status 10. -/
theorem generateResponseError_amended_witness :
    generateResponseErrorFromStatus 10 = "Unknown" :=
  generateResponseError_amended.2.2.2.2 10 (by decide) (by decide) (by decide) (by decide)

/-- Claim C4.  Decoding the encoding of a well-formed message reproduces the
message exactly, hence the same set of requests by id, responses by request
id, and blocks by content address. -/
theorem message_roundtrip (m : GraphSyncMessage) (h : WFMsg m) :
    newMessageFromProto (ToProto m) = some m := by
  obtain ⟨hreq, hreqnd, hres, hresnd, hblk, hblknd⟩ := h
  have hfold_req : m.requests.foldl (fun rs e => upsert e.2.id e.2 rs) [] = m.requests := by
    rw [foldl_upsert_req_key m.requests [] hreq,
      foldl_upsert m.requests [] (by simp) hreqnd]
    simp
  have hfold_res :
      m.responses.foldl (fun rs e => upsert e.2.requestID e.2 rs) [] = m.responses := by
    rw [foldl_upsert_res_key m.responses [] hres,
      foldl_upsert m.responses [] (by simp) hresnd]
    simp
  have hfold_blk : m.blocks.foldl (fun bs e => upsert e.1 e.2 bs) [] = m.blocks := by
    rw [foldl_upsert m.blocks [] (by simp) hblknd]
    simp
  have h1 : newMessageFromProto (ToProto m) =
      addBlocksFromProto
        { newMsg with
            requests := m.requests.foldl (fun rs e => upsert e.2.id e.2 rs) [],
            responses := m.responses.foldl (fun rs e => upsert e.2.requestID e.2 rs) [] }
        ((m.blocks.map (fun e => e.2)).map (fun b => PbBlock.mk b.cid.pfx b.data)) := by
    show addBlocksFromProto
        ((m.responses.map (fun e => PbResponse.mk e.2.requestID e.2.status e.2.extra)).foldl
          (fun g res => AddResponse g (NewResponse res.id res.status res.extra))
          ((m.requests.map
              (fun e => PbRequest.mk e.2.id e.2.selector e.2.priority e.2.isCancel)).foldl
            (fun g req => AddRequest g (newRequest req.id req.selector req.priority req.cancel))
            newMsg))
        ((m.blocks.map (fun e => e.2)).map (fun b => PbBlock.mk b.cid.pfx b.data)) = _
    rw [foldl_addRequest_split, foldl_addResponse_split]
    rfl
  rw [h1, hfold_req, hfold_res]
  rw [addBlocks_split m.blocks _ hblk]
  show some
      { newMsg with
          requests := m.requests, responses := m.responses,
          blocks := m.blocks.foldl (fun bs e => upsert e.1 e.2 bs) [] } = some m
  rw [hfold_blk]

/-- Witness for the C4 round trip at a concrete well-formed message holding
one request, one response and one block. -/
theorem message_roundtrip_witness :
    WFMsg
        { requests := [(1, { selector := [5], priority := 2, id := 1, isCancel := false })],
          responses := [(1, { requestID := 1, status := 20, extra := [7] })],
          blocks := [({ pfx := [9], digest := [8] },
            { cid := { pfx := [9], digest := [8] }, data := [8] })] } ∧
      newMessageFromProto (ToProto
        { requests := [(1, { selector := [5], priority := 2, id := 1, isCancel := false })],
          responses := [(1, { requestID := 1, status := 20, extra := [7] })],
          blocks := [({ pfx := [9], digest := [8] },
            { cid := { pfx := [9], digest := [8] }, data := [8] })] }) = some
        { requests := [(1, { selector := [5], priority := 2, id := 1, isCancel := false })],
          responses := [(1, { requestID := 1, status := 20, extra := [7] })],
          blocks := [({ pfx := [9], digest := [8] },
            { cid := { pfx := [9], digest := [8] }, data := [8] })] } :=
  ⟨by decide, message_roundtrip _ (by decide)⟩

/-- Claim C3, counterexample.  A single GetProcess call on a fresh peer
manager creates a mapped peer-process instance with refcount 0, so the
reachable state violates the claimed invariant that every mapped instance has
refcount at least 1. -/
theorem peerManager_refcnt_zero_cex :
    (PMRun [PMOp.getProcess 0]).peerProcesses = [(0, { refcnt := 0, process := 0 })] ∧
      ¬ ∀ e ∈ (PMRun [PMOp.getProcess 0]).peerProcesses, 1 ≤ e.2.refcnt := by
  decide

/-- Claim C3, amended.  After any sequence of Connected, Disconnected,
ConnectedPeers and GetProcess calls every mapped peer-process instance has
refcount at least 0 (GetProcess creates entries at refcount 0); Shutdown calls
never repeat; and when Disconnected decrements a refcount to zero (or below)
the entry is removed and that worker's Shutdown is invoked then for the first
and only time. -/
theorem peerManager_refcount_amended (ops : List PMOp) :
    (∀ e ∈ (PMRun ops).peerProcesses, 0 ≤ e.2.refcnt) ∧
      (PMRun ops).shutdownLog.Nodup ∧
      ∀ p pqi, alookup p (PMRun ops).peerProcesses = some pqi → pqi.refcnt ≤ 1 →
        alookup p (Disconnected p (PMRun ops)).peerProcesses = none ∧
        (Disconnected p (PMRun ops)).shutdownLog =
          (PMRun ops).shutdownLog ++ [pqi.process] ∧
        pqi.process ∉ (PMRun ops).shutdownLog ∧
        (Disconnected p (PMRun ops)).shutdownLog.Nodup := by
  obtain ⟨h1, h2, h3, h4, h5, h6, h7⟩ := PMInv_run ops
  refine ⟨h1, h6, ?_⟩
  intro p pqi hk hle
  have hmem : (p, pqi) ∈ (PMRun ops).peerProcesses := alookup_eq_some_mem hk
  have hr : ¬ 0 < pqi.refcnt - 1 := by omega
  have hD : Disconnected p (PMRun ops) =
      (if 0 < pqi.refcnt - 1 then
        { PMRun ops with peerProcesses :=
            (updateAt p (fun i => { i with refcnt := pqi.refcnt - 1 })
              (PMRun ops).peerProcesses) }
      else
        { PMRun ops with peerProcesses := eraseKey p (PMRun ops).peerProcesses,
                         shutdownLog := (PMRun ops).shutdownLog ++ [pqi.process] }) := by
    unfold Disconnected
    rw [hk]
  rw [hD, if_neg hr]
  refine ⟨?_, rfl, h7 _ hmem, ?_⟩
  · exact alookup_eraseKey_self p (PMRun ops).peerProcesses
  · show ((PMRun ops).shutdownLog ++ [pqi.process]).Nodup
    rw [List.nodup_append]
    refine ⟨h6, List.nodup_singleton _, ?_⟩
    intro a ha hb
    rcases List.mem_singleton.mp hb with rfl
    exact h7 _ hmem ha

/-- Witness for the amended C3 theorem: connect one peer once, then
disconnect; the entry disappears and its worker is shut down exactly once. -/
theorem peerManager_refcount_amended_witness :
    alookup 0 (Disconnected 0 (PMRun [PMOp.connected 0])).peerProcesses = none ∧
      (Disconnected 0 (PMRun [PMOp.connected 0])).shutdownLog =
        (PMRun [PMOp.connected 0]).shutdownLog ++ [0] ∧
      0 ∉ (PMRun [PMOp.connected 0]).shutdownLog ∧
      (Disconnected 0 (PMRun [PMOp.connected 0])).shutdownLog.Nodup :=
  (peerManager_refcount_amended [PMOp.connected 0]).2.2 0 { refcnt := 1, process := 0 }
    (by decide) (by decide)

/-- Claim C5.  A response in the batch passes the peer filter exactly when its
request id has an in-progress entry whose recorded destination peer is the
sending peer, and the handler's behaviour on the full batch equals its
behaviour on the filtered batch: responses that fail the filter have no effect
at all. -/
theorem processResponses_peer_filter (st : RMState) (p : Nat)
    (responses : List GraphSyncResponse) (blks : List Block) :
    (∀ r : GraphSyncResponse,
        r ∈ filterResponsesForPeer st responses p ↔
          r ∈ responses ∧
            ∃ s, alookup r.requestID st.inProgressRequestStatuses = some s ∧ s.p = p) ∧
      processResponseMessage_handle st p responses blks =
        processResponseMessage_handle st p (filterResponsesForPeer st responses p) blks := by
  constructor
  · intro r
    simp only [filterResponsesForPeer, List.mem_filter]
    constructor
    · rintro ⟨hmem, hpred⟩
      refine ⟨hmem, ?_⟩
      cases hk : alookup r.requestID st.inProgressRequestStatuses with
      | none => rw [hk] at hpred; exact absurd hpred (by simp)
      | some s =>
        rw [hk] at hpred
        simp only [beq_iff_eq] at hpred
        exact ⟨s, rfl, hpred⟩
    · rintro ⟨hmem, s, hk, hsp⟩
      refine ⟨hmem, ?_⟩
      rw [hk]
      simp [hsp]
  · have hidem : filterResponsesForPeer st (filterResponsesForPeer st responses p) p =
        filterResponsesForPeer st responses p := by
      apply List.filter_eq_self.mpr
      intro r hr
      exact (List.mem_filter.mp hr).2
    unfold processResponseMessage_handle
    rw [hidem]

/-- Witness for the C5 theorem at a concrete state with one in-progress entry
for peer 3 and a batch holding one matching and one unknown response. -/
theorem processResponses_peer_filter_witness :
    processResponseMessage_handle
        { nextRequestID := 2, inProgressRequestStatuses := [(0, { p := 3 })] } 3
        [{ requestID := 0, status := 14, extra := [1] },
         { requestID := 1, status := 14, extra := [2] }] [] =
      processResponseMessage_handle
        { nextRequestID := 2, inProgressRequestStatuses := [(0, { p := 3 })] } 3
        (filterResponsesForPeer
          { nextRequestID := 2, inProgressRequestStatuses := [(0, { p := 3 })] }
          [{ requestID := 0, status := 14, extra := [1] },
           { requestID := 1, status := 14, extra := [2] }] 3) [] :=
  (processResponses_peer_filter
    { nextRequestID := 2, inProgressRequestStatuses := [(0, { p := 3 })] } 3
    [{ requestID := 0, status := 14, extra := [1] },
     { requestID := 1, status := 14, extra := [2] }] []).2

/-- Claim C6.  In any successful run of the processResponseMessage handler,
every CompleteResponsesFor effect occurs strictly after the single
ProcessResponse delivery of the batch's metadata and blocks to the async
loader, which sits at position 0 of the handler's effect trace. -/
theorem processResponse_before_complete (st : RMState) (p : Nat)
    (responses : List GraphSyncResponse) (blks : List Block)
    (st' : RMState) (evs : List RMEvent)
    (h : processResponseMessage_handle st p responses blks = some (st', evs)) :
    ∀ i requestID, evs[i]? = some (RMEvent.completeResponsesFor requestID) →
      0 < i ∧ evs[0]? = some (RMEvent.processResponse
        (metadataForResponses (filterResponsesForPeer st responses p)) blks) := by
  unfold processResponseMessage_handle at h
  cases hT : processTerminations st (filterResponsesForPeer st responses p) with
  | none =>
    simp only [hT] at h
    exact absurd h (by simp)
  | some pr =>
    obtain ⟨st2, evs2⟩ := pr
    simp only [hT, Option.some.injEq, Prod.mk.injEq] at h
    obtain ⟨hst, hevs⟩ := h
    subst hevs
    intro i requestID hi
    cases i with
    | zero => simp at hi
    | succ n => exact ⟨Nat.succ_pos n, by simp⟩

/-- Witness for the C6 theorem at a concrete batch holding one terminal
success response: the CompleteResponsesFor at index 1 is preceded by the
ProcessResponse at index 0. -/
theorem processResponse_before_complete_witness :
    0 < 1 ∧
      ([RMEvent.processResponse [((0 : Int), ([] : List Nat))] ([] : List Block),
        RMEvent.completeResponsesFor 0, RMEvent.removeEntry 0] : List RMEvent)[0]? =
        some (RMEvent.processResponse
          (metadataForResponses (filterResponsesForPeer
            { nextRequestID := 5, inProgressRequestStatuses := [(0, { p := 1 })] }
            [{ requestID := 0, status := 20, extra := [] }] 1)) []) :=
  processResponse_before_complete
    { nextRequestID := 5, inProgressRequestStatuses := [(0, { p := 1 })] } 1
    [{ requestID := 0, status := 20, extra := [] }] []
    { nextRequestID := 5, inProgressRequestStatuses := [] }
    [RMEvent.processResponse [(0, [])] [], RMEvent.completeResponsesFor 0,
      RMEvent.removeEntry 0]
    (by decide) 1 0 (by decide)

theorem cancelRequest_handle_none (st : RMState) (requestID : Int)
    (h : alookup requestID st.inProgressRequestStatuses = none) :
    cancelRequestMessage_handle st requestID = (st, []) := by
  unfold cancelRequestMessage_handle
  rw [h]

theorem cancelRequest_handle_some (st : RMState) (requestID : Int)
    (s : InProgressRequestStatus)
    (h : alookup requestID st.inProgressRequestStatuses = some s) :
    cancelRequestMessage_handle st requestID =
      ({ st with inProgressRequestStatuses :=
          eraseKey requestID st.inProgressRequestStatuses },
       [RMEvent.sendRequest s.p (CancelRequest requestID),
        RMEvent.removeEntry requestID,
        RMEvent.cancelTraversal requestID]) := by
  unfold cancelRequestMessage_handle
  rw [h]

/-- Claim C7.  Handling a cancel for a live in-progress request sends the
cancel frame (empty selector, zero priority, cancel flag set) to the entry's
recorded peer before removing the entry (trace position 0 versus 1) and then
cancels the traversal; a cancel for an unknown id changes nothing and sends
nothing; and a second cancel for the same id is a no-op. -/
theorem cancelRequest_spec (st : RMState) (requestID : Int) :
    (∀ s, alookup requestID st.inProgressRequestStatuses = some s →
        cancelRequestMessage_handle st requestID =
          ({ st with inProgressRequestStatuses :=
              eraseKey requestID st.inProgressRequestStatuses },
           [RMEvent.sendRequest s.p (CancelRequest requestID),
            RMEvent.removeEntry requestID,
            RMEvent.cancelTraversal requestID]) ∧
          (CancelRequest requestID).selector = [] ∧
          (CancelRequest requestID).priority = 0 ∧
          (CancelRequest requestID).isCancel = true) ∧
      (alookup requestID st.inProgressRequestStatuses = none →
        cancelRequestMessage_handle st requestID = (st, [])) ∧
      cancelRequestMessage_handle
          (cancelRequestMessage_handle st requestID).1 requestID =
        ((cancelRequestMessage_handle st requestID).1, []) := by
  refine ⟨?_, ?_, ?_⟩
  · intro s hs
    exact ⟨cancelRequest_handle_some st requestID s hs, rfl, rfl, rfl⟩
  · intro hn
    exact cancelRequest_handle_none st requestID hn
  · cases hk : alookup requestID st.inProgressRequestStatuses with
    | none =>
      rw [cancelRequest_handle_none st requestID hk]
      exact cancelRequest_handle_none st requestID hk
    | some s =>
      rw [cancelRequest_handle_some st requestID s hk]
      exact cancelRequest_handle_none _ requestID
        (alookup_eraseKey_self requestID st.inProgressRequestStatuses)

/-- Witness for the C7 theorem: a live entry for id 3 at peer 9 produces the
cancel frame and removal, and a cancel on an empty map is a no-op. -/
theorem cancelRequest_spec_witness :
    (cancelRequestMessage_handle
        { nextRequestID := 0, inProgressRequestStatuses := [(3, { p := 9 })] } 3 =
      ({ nextRequestID := 0, inProgressRequestStatuses := [] },
       [RMEvent.sendRequest 9 (CancelRequest 3), RMEvent.removeEntry 3,
        RMEvent.cancelTraversal 3]) ∧
      (CancelRequest 3).selector = [] ∧ (CancelRequest 3).priority = 0 ∧
      (CancelRequest 3).isCancel = true) ∧
      cancelRequestMessage_handle
          { nextRequestID := 7, inProgressRequestStatuses := [] } 4 =
        ({ nextRequestID := 7, inProgressRequestStatuses := [] }, []) :=
  ⟨(cancelRequest_spec
      { nextRequestID := 0, inProgressRequestStatuses := [(3, { p := 9 })] } 3).1
      { p := 9 } (by decide),
   (cancelRequest_spec
      { nextRequestID := 7, inProgressRequestStatuses := [] } 4).2.1 (by decide)⟩

/-- Claim C8.  When the bridge reports a non-empty error list for the
selector spec, SendRequest returns immediately, posting no event to the event
loop: the progress stream is closed with no values and the error stream holds
exactly the single Invalid Selector Spec error. -/
theorem sendRequest_invalid_selector (bridge : IPLDBridge) (sel : Nat)
    (h : bridge.ValidateSelectorSpec sel ≠ []) :
    SendRequest bridge sel =
      SendRequestOutcome.immediate { progress := [], errors := ["Invalid Selector Spec"] } := by
  have hlen : (bridge.ValidateSelectorSpec sel).length ≠ 0 := by
    simpa [List.length_eq_zero] using h
  unfold SendRequest
  rw [if_pos hlen]
  rfl

/-- Witness for the C8 theorem with a bridge whose validation always fails. -/
theorem sendRequest_invalid_selector_witness :
    SendRequest { ValidateSelectorSpec := fun _ => ["bad selector"] } 0 =
      SendRequestOutcome.immediate { progress := [], errors := ["Invalid Selector Spec"] } :=
  sendRequest_invalid_selector { ValidateSelectorSpec := fun _ => ["bad selector"] } 0
    (by decide)

/-- Claim C9, counterexample.  The id counter is a Go int32: the request
issued after id 2147483647 receives id -2147483648, so ids are not strictly
monotonically increasing over the whole process lifetime. -/
theorem requestID_wraparound_cex :
    assignedRequestID 2147483648 < assignedRequestID 2147483647 := by
  rw [assignedRequestID_closed, assignedRequestID_closed]
  unfold int32wrap
  norm_num

/-- Claim C9, amended.  Request ids assigned by successive newRequest events
are strictly increasing as long as fewer than 2^31 requests have been issued
by the process (the int32 counter has not yet wrapped). -/
theorem requestID_monotone_amended (i j : Nat) (hij : i < j) (hj : j < 2147483648) :
    assignedRequestID i < assignedRequestID j := by
  rw [assignedRequestID_closed, assignedRequestID_closed]
  unfold int32wrap
  omega

/-- Witness for the amended C9 theorem at the first two assigned ids. -/
theorem requestID_monotone_amended_witness :
    assignedRequestID 0 < assignedRequestID 1 :=
  requestID_monotone_amended 0 1 (by decide) (by decide)

/-- Claim C10.  The peer filter runs against the map before any termination is
processed, so a batch carrying two terminal-failure responses for the same
in-progress id passes both through the filter; processing the first removes
the in-progress entry and processing the second looks the id up again,
dereferencing a missing entry (a nil-pointer panic in the Go code, `none`
here), whereas the same batch with a single terminal-failure response is
handled. -/
theorem processTerminations_nil_deref :
    processResponseMessage_handle
        { nextRequestID := 1, inProgressRequestStatuses := [(0, { p := 7 })] } 7
        [{ requestID := 0, status := 31, extra := [] },
         { requestID := 0, status := 31, extra := [] }] [] = none ∧
      processResponseMessage_handle
          { nextRequestID := 1, inProgressRequestStatuses := [(0, { p := 7 })] } 7
          [{ requestID := 0, status := 31, extra := [] }] [] ≠ none := by
  decide
